import Mathlib

/-!
Verification of the cross-validation evaluator in classifier.py.

The repository is a thin layer over an external machine-learning library.
We embed the control flow that the repository itself owns: the training
entry point, the generator variant of cross-validation, the metric
accumulation loop of evaluate, and the fold planner contract.  The
concrete learning algorithms, plotting, and the probability estimates are
external collaborators; they appear as opaque oracle inputs.

Labels are integers (Int), indices are Nat, metric values are rationals.
-/

/-- The keys of the classifiers dictionary at the top of classifier.py:
the registered predictor configurations. -/
def classifierRegistry : List String :=
  ["logistic_regression", "svm", "linear_svm", "svm_rbf", "mlp", "rf"]

/-- Errors of the taxonomy in the specification.  The code of
Classifier.train contains no raise statement, so its embedding never
produces configUnavailable; the constructor exists so that the absence of
the error is expressible. -/
inductive TrainError
  | configUnavailable
  deriving DecidableEq

/-- Embedding of Classifier.train.  The Python body first replaces both
arguments by the held dataset when both are None, then either skips the
fit call (the dnn branch is a bare pass) or calls classifier.fit with the
current arguments, and finally returns self.classifier.

The result models the observable behaviour of one call: Except.ok means
the call returned (the code never raises); the payload is none when the
dnn branch skipped fitting, and some args when fit was invoked, recording
exactly the pair of arguments fit received. -/
def Classifier.train {α β : Type} (classifier_type : String)
    (selfX : α) (selfY : β) (X_train : Option α) (y_train : Option β) :
    Except TrainError (Option (Option α × Option β)) :=
  let args : Option α × Option β :=
    match X_train, y_train with
    | none, none => (some selfX, some selfY)
    | xt, yt => (xt, yt)
  if classifier_type = "dnn" then Except.ok none
  else Except.ok (some args)

/-- C1 counterexample: with the dnn configuration active, train raises
nothing at all: it returns normally, having skipped the fit call, so the
predictor object comes back untrained.  Moreover dnn is not a key of the
classifiers dictionary. -/
theorem C1_train_dnn_counterexample :
    Classifier.train "dnn" (0 : Int) (0 : Int) none none = Except.ok none ∧
    "dnn" ∉ classifierRegistry := by
  constructor
  · rfl
  · decide

/-- C1 (amended): calling Classifier.train when classifier_type is the
reserved dnn slot never raises ConfigUnavailableError; the call returns
normally with the fit step skipped, i.e. it silently yields the predictor
object untrained.  The dnn slot is also absent from the registry, so a
Classifier cannot even be constructed with it. -/
theorem C1_train_dnn_silently_skips {α β : Type} (selfX : α) (selfY : β)
    (X_train : Option α) (y_train : Option β) :
    Classifier.train "dnn" selfX selfY X_train y_train = Except.ok none ∧
    "dnn" ∉ classifierRegistry := by
  constructor
  · rfl
  · decide

/-- C1 amended witness at a concrete input. -/
theorem C1_train_dnn_silently_skips_witness :
    Classifier.train "dnn" (1 : Int) (2 : Int) none none = Except.ok none ∧
    "dnn" ∉ classifierRegistry :=
  C1_train_dnn_silently_skips (1 : Int) (2 : Int) none none

/-- C10: the fallback to the held dataset happens only when both
arguments are None; when exactly one is None the pair is forwarded to fit
unchanged, and when neither is None both are forwarded unchanged.  Stated
for any non-dnn configuration, where the fit call actually happens. -/
theorem C10_train_fallback_only_when_both_none {α β : Type}
    (classifier_type : String) (hct : classifier_type ≠ "dnn")
    (selfX : α) (selfY : β) :
    Classifier.train classifier_type selfX selfY none none
      = Except.ok (some (some selfX, some selfY)) ∧
    (∀ xt : α, Classifier.train classifier_type selfX selfY (some xt) none
      = Except.ok (some (some xt, none))) ∧
    (∀ yt : β, Classifier.train classifier_type selfX selfY none (some yt)
      = Except.ok (some (none, some yt))) ∧
    (∀ (xt : α) (yt : β),
      Classifier.train classifier_type selfX selfY (some xt) (some yt)
      = Except.ok (some (some xt, some yt))) := by
  refine ⟨?_, ?_, ?_, ?_⟩ <;>
    simp [Classifier.train, hct]

/-- C10 witness at a concrete configuration and dataset. -/
theorem C10_train_fallback_witness :
    ("svm" : String) ≠ "dnn" ∧
    (Classifier.train "svm" (5 : Int) (7 : Int) none none
      = Except.ok (some (some (5 : Int), some (7 : Int))) ∧
    (∀ xt : Int, Classifier.train "svm" (5 : Int) (7 : Int) (some xt) none
      = Except.ok (some (some xt, none))) ∧
    (∀ yt : Int, Classifier.train "svm" (5 : Int) (7 : Int) none (some yt)
      = Except.ok (some (none, some yt))) ∧
    (∀ (xt : Int) (yt : Int),
      Classifier.train "svm" (5 : Int) (7 : Int) (some xt) (some yt)
      = Except.ok (some (some xt, some yt)))) :=
  ⟨by decide, C10_train_fallback_only_when_both_none "svm" (by decide) 5 7⟩

/-- A fold as produced by the fold planner: the pair
(train_indices, test_indices) into the dataset. -/
abbrev Fold := List Nat × List Nat

/-- Label lookup self.y[idx]; indices produced by the planner are in
range, out-of-range lookups default to 0. -/
def labelAt (y : List Int) (idx : Nat) : Int := y.getD idx 0

/-- Embedding of Classifier.cross_validate.  For each fold of the planner
it filters the training indices with the test self.y[idx] >= 0, fits a
fresh fixed SVC on the filtered subset (the fitting itself is the opaque
external collaborator), and yields (model, test_index).  The embedding
yields, per fold, the pair (filtered training indices the model was fit
on, test indices unchanged). -/
def Classifier.cross_validate (y : List Int) (folds : List Fold) :
    List Fold :=
  folds.map (fun p => (p.1.filter (fun idx => 0 ≤ labelAt y idx), p.2))

/-- C2: in every fold yielded by cross_validate, every index carrying the
unknown-label sentinel -1 has been removed from the training index set
before fitting, while the yielded test index set is exactly the test set
of the planner, unchanged. -/
theorem C2_cross_validate_sentinel_excluded (y : List Int)
    (folds : List Fold) (j : Nat) (hj : j < folds.length) :
    (∀ idx ∈ (folds.getD j ([], [])).1, labelAt y idx = -1 →
      idx ∉ ((Classifier.cross_validate y folds).getD j ([], [])).1) ∧
    ((Classifier.cross_validate y folds).getD j ([], [])).2
      = (folds.getD j ([], [])).2 := by
  have hj2 : j < (Classifier.cross_validate y folds).length := by
    simpa [Classifier.cross_validate] using hj
  have hmap : (Classifier.cross_validate y folds).getD j ([], [])
      = (((folds.getD j ([], [])).1.filter
            (fun idx => 0 ≤ labelAt y idx)),
         (folds.getD j ([], [])).2) := by
    rw [List.getD_eq_getElem _ _ hj2, List.getD_eq_getElem _ _ hj]
    simp [Classifier.cross_validate]
  refine ⟨?_, ?_⟩
  · intro idx _ hlab hmem
    rw [hmap] at hmem
    have := (List.mem_filter.mp hmem).2
    rw [hlab] at this
    exact absurd (of_decide_eq_true this) (by norm_num)
  · rw [hmap]

/-- C2 witness: a dataset with a sentinel label.  Index 2 has label -1;
it is in the planned training set of fold 0 but not in the yielded one,
and the yielded test sets equal the planned ones. -/
theorem C2_cross_validate_sentinel_excluded_witness :
    0 < ([([0, 1, 2], [3]), ([2, 3], [0, 1])] : List Fold).length ∧
    ((∀ idx ∈ (([([0, 1, 2], [3]), ([2, 3], [0, 1])] : List Fold).getD 0
        ([], [])).1,
      labelAt [0, 1, -1, 1] idx = -1 →
      idx ∉ ((Classifier.cross_validate [0, 1, -1, 1]
          [([0, 1, 2], [3]), ([2, 3], [0, 1])]).getD 0 ([], [])).1) ∧
    ((Classifier.cross_validate [0, 1, -1, 1]
        [([0, 1, 2], [3]), ([2, 3], [0, 1])]).getD 0 ([], [])).2
      = (([([0, 1, 2], [3]), ([2, 3], [0, 1])] : List Fold).getD 0
          ([], [])).2) :=
  ⟨by decide,
   C2_cross_validate_sentinel_excluded [0, 1, -1, 1]
     [([0, 1, 2], [3]), ([2, 3], [0, 1])] 0 (by decide)⟩

/-- C9: the training filter of cross_validate keeps exactly the indices
whose label is nonnegative: an index of the planned training set survives
into the fitted training set iff its label is >= 0, so every negative
label value, not only the sentinel -1, is excluded. -/
theorem C9_cross_validate_filter_keeps_nonnegative (y : List Int)
    (folds : List Fold) (j : Nat) (hj : j < folds.length) (idx : Nat) :
    idx ∈ ((Classifier.cross_validate y folds).getD j ([], [])).1 ↔
      (idx ∈ (folds.getD j ([], [])).1 ∧ 0 ≤ labelAt y idx) := by
  have hj2 : j < (Classifier.cross_validate y folds).length := by
    simpa [Classifier.cross_validate] using hj
  rw [List.getD_eq_getElem _ _ hj2, List.getD_eq_getElem _ _ hj]
  simp [Classifier.cross_validate, List.mem_filter]

/-- C9 witness: label -5 at index 1 is excluded from the fitted training
set even though it is not the -1 sentinel. -/
theorem C9_cross_validate_filter_witness :
    0 < ([([0, 1, 2], [3])] : List Fold).length ∧
    ¬ (1 ∈ ((Classifier.cross_validate [4, -5, 1, 0]
        [([0, 1, 2], [3])]).getD 0 ([], [])).1) := by
  refine ⟨by decide, ?_⟩
  rw [C9_cross_validate_filter_keeps_nonnegative [4, -5, 1, 0]
    [([0, 1, 2], [3])] 0 (by decide) 1]
  decide

/-- Error raised by the fold planner when stratification is impossible. -/
inductive SplitError
  | insufficientSamples
  deriving DecidableEq

/-- Occurrence rank of index i within its own label class: how many
earlier indices carry the same label. -/
def rankIn (y : List Int) (i : Nat) : Nat :=
  (y.take i).count (y.getD i 0)

/-- Modelled from the spec: the FoldPlanner component (the stratified
k-fold splitter is the external library collaborator StratifiedKFold,
whose implementation is not part of src/).  Each class is spread over the
k folds as evenly as possible: the j-th member of a class lands in test
fold j mod k.  testIdx y k f is the test index set of fold f. -/
def testIdx (y : List Int) (k f : Nat) : List Nat :=
  (List.range y.length).filter (fun i => rankIn y i % k = f)

/-- Modelled from the spec: the complementary training index set of fold
f under the same assignment. -/
def trainIdx (y : List Int) (k f : Nat) : List Nat :=
  (List.range y.length).filter (fun i => ¬ rankIn y i % k = f)

/-- Modelled from the spec: FoldPlanner.split.  It must fail with
InsufficientSamplesError if any class has fewer members than k, and
otherwise return exactly k (train_indices, test_indices) pairs that
stratify the data.  Shuffle randomness is external; the embedding uses
the identity arrangement, which satisfies the same contract. -/
def FoldPlanner.split (y : List Int) (k : Nat) :
    Except SplitError (List Fold) :=
  if y.all (fun c => k ≤ y.count c) then
    Except.ok ((List.range k).map (fun f => (trainIdx y k f, testIdx y k f)))
  else Except.error SplitError.insufficientSamples

lemma mem_testIdx (y : List Int) (k f i : Nat) :
    i ∈ testIdx y k f ↔ (i < y.length ∧ rankIn y i % k = f) := by
  simp [testIdx, List.mem_filter, List.mem_range]

/-- C5: if some class present in the label vector has fewer members than
the fold count k, the planner split fails with InsufficientSamplesError
instead of producing folds. -/
theorem C5_split_insufficient_samples (y : List Int) (k : Nat) (c : Int)
    (hc : c ∈ y) (hcount : y.count c < k) :
    FoldPlanner.split y k = Except.error SplitError.insufficientSamples := by
  unfold FoldPlanner.split
  rw [if_neg]
  intro hall
  rw [List.all_eq_true] at hall
  have := hall c hc
  rw [decide_eq_true_iff] at this
  exact absurd this (not_le.mpr hcount)

/-- C5 witness: the scenario of the spec, a class with only 3 members and
k = 10. -/
theorem C5_split_insufficient_samples_witness :
    (0 : Int) ∈ (List.replicate 3 0 ++ List.replicate 12 1 : List Int) ∧
    (List.replicate 3 0 ++ List.replicate 12 1 : List Int).count 0 < 10 ∧
    FoldPlanner.split (List.replicate 3 0 ++ List.replicate 12 1) 10
      = Except.error SplitError.insufficientSamples :=
  ⟨by decide, by decide,
   C5_split_insufficient_samples (List.replicate 3 0 ++ List.replicate 12 1)
     10 0 (by decide) (by decide)⟩

/-- C6: for every k at least 2 and every label vector in which each class
present has at least k members, the planner split succeeds with exactly k
(train, test) pairs whose test index sets are pairwise disjoint and whose
union is the full index range below the dataset length. -/
theorem C6_split_partitions (y : List Int) (k : Nat) (hk : 2 ≤ k)
    (hcls : ∀ c ∈ y, k ≤ y.count c) :
    ∃ folds : List Fold,
      FoldPlanner.split y k = Except.ok folds ∧
      folds.length = k ∧
      (∀ a b : Nat, a < k → b < k → a ≠ b →
        ∀ i, i ∈ (folds.getD a ([], [])).2 →
          i ∉ (folds.getD b ([], [])).2) ∧
      (∀ i : Nat, i < y.length ↔ ∃ p ∈ folds, i ∈ p.2) := by
  have hpos : 0 < k := lt_of_lt_of_le two_pos hk
  refine ⟨(List.range k).map (fun f => (trainIdx y k f, testIdx y k f)),
    ?_, ?_, ?_, ?_⟩
  · unfold FoldPlanner.split
    rw [if_pos]
    rw [List.all_eq_true]
    intro c hc
    exact decide_eq_true_iff.mpr (hcls c hc)
  · simp
  · intro a b ha hb hab i hia hib
    have hga : ((List.range k).map
        (fun f => (trainIdx y k f, testIdx y k f))).getD a ([], [])
        = (trainIdx y k a, testIdx y k a) := by
      rw [List.getD_eq_getElem _ _ (by simpa using ha)]
      simp
    have hgb : ((List.range k).map
        (fun f => (trainIdx y k f, testIdx y k f))).getD b ([], [])
        = (trainIdx y k b, testIdx y k b) := by
      rw [List.getD_eq_getElem _ _ (by simpa using hb)]
      simp
    rw [hga] at hia
    rw [hgb] at hib
    have h1 := ((mem_testIdx y k a i).mp hia).2
    have h2 := ((mem_testIdx y k b i).mp hib).2
    exact hab (h1 ▸ h2 ▸ rfl)
  · intro i
    constructor
    · intro hi
      refine ⟨(trainIdx y k (rankIn y i % k), testIdx y k (rankIn y i % k)),
        List.mem_map.mpr ⟨rankIn y i % k,
          List.mem_range.mpr (Nat.mod_lt _ hpos), rfl⟩, ?_⟩
      exact (mem_testIdx y k _ i).mpr ⟨hi, rfl⟩
    · rintro ⟨p, hp, hip⟩
      rcases List.mem_map.mp hp with ⟨f, _, rfl⟩
      exact ((mem_testIdx y k f i).mp hip).1

/-- C6 witness: a balanced binary dataset of four points with k = 2. -/
theorem C6_split_partitions_witness :
    (2 ≤ 2 ∧ ∀ c ∈ ([0, 1, 0, 1] : List Int), 2 ≤ ([0, 1, 0, 1] : List Int).count c) ∧
    (∃ folds : List Fold,
      FoldPlanner.split [0, 1, 0, 1] 2 = Except.ok folds ∧
      folds.length = 2 ∧
      (∀ a b : Nat, a < 2 → b < 2 → a ≠ b →
        ∀ i, i ∈ (folds.getD a ([], [])).2 →
          i ∉ (folds.getD b ([], [])).2) ∧
      (∀ i : Nat, i < ([0, 1, 0, 1] : List Int).length ↔ ∃ p ∈ folds, i ∈ p.2)) :=
  ⟨⟨by decide, by decide⟩,
   C6_split_partitions [0, 1, 0, 1] 2 (by decide) (by decide)⟩

/-- Modelled from the spec: the external metric collaborator
accuracy_score, the fraction of test points predicted correctly. -/
def accuracy_score (y_true y_pred : List Int) : ℚ :=
  (((y_true.zip y_pred).filter (fun p => p.1 = p.2)).length : ℚ)
    / (y_true.length : ℚ)

/-- True positives of class c: points of class c predicted as c. -/
def truePos (c : Int) (y_true y_pred : List Int) : Nat :=
  ((y_true.zip y_pred).filter (fun p => p.1 = c ∧ p.2 = c)).length

/-- False negatives of class c: points of class c predicted otherwise. -/
def falseNeg (c : Int) (y_true y_pred : List Int) : Nat :=
  ((y_true.zip y_pred).filter (fun p => p.1 = c ∧ ¬ p.2 = c)).length

/-- False positives of class c: points of other classes predicted c. -/
def falsePos (c : Int) (y_true y_pred : List Int) : Nat :=
  ((y_true.zip y_pred).filter (fun p => ¬ p.1 = c ∧ p.2 = c)).length

/-- Per-class recall TP/(TP+FN); in the rationals a zero denominator
yields 0, the zero_division behaviour of the metric collaborator. -/
def recallOf (c : Int) (y_true y_pred : List Int) : ℚ :=
  (truePos c y_true y_pred : ℚ)
    / ((truePos c y_true y_pred : ℚ) + (falseNeg c y_true y_pred : ℚ))

/-- Per-class precision TP/(TP+FP). -/
def precisionOf (c : Int) (y_true y_pred : List Int) : ℚ :=
  (truePos c y_true y_pred : ℚ)
    / ((truePos c y_true y_pred : ℚ) + (falsePos c y_true y_pred : ℚ))

/-- Per-class F-measure, harmonic mean of precision and recall. -/
def f1Of (c : Int) (y_true y_pred : List Int) : ℚ :=
  2 * precisionOf c y_true y_pred * recallOf c y_true y_pred
    / (precisionOf c y_true y_pred + recallOf c y_true y_pred)

/-- Modelled from the spec: binary recall_score with positive label 1. -/
def recall_score (y_true y_pred : List Int) : ℚ := recallOf 1 y_true y_pred

/-- Modelled from the spec: binary precision_score, positive label 1. -/
def precision_score (y_true y_pred : List Int) : ℚ :=
  precisionOf 1 y_true y_pred

/-- Modelled from the spec: binary f1_score with positive label 1. -/
def f1_score (y_true y_pred : List Int) : ℚ := f1Of 1 y_true y_pred

/-- The class labels present in either the test labels or the
predictions, each once. -/
def classLabels (y_true y_pred : List Int) : List Int :=
  (y_true ++ y_pred).dedup

/-- Modelled from the spec: macro-averaged recall, the unweighted mean
over the present classes of the per-class recall. -/
def macroRecall (y_true y_pred : List Int) : ℚ :=
  ((classLabels y_true y_pred).map (fun c => recallOf c y_true y_pred)).sum
    / ((classLabels y_true y_pred).length : ℚ)

/-- Modelled from the spec: macro-averaged precision. -/
def macroPrecision (y_true y_pred : List Int) : ℚ :=
  ((classLabels y_true y_pred).map
      (fun c => precisionOf c y_true y_pred)).sum
    / ((classLabels y_true y_pred).length : ℚ)

/-- Modelled from the spec: macro-averaged F-measure. -/
def macroF1 (y_true y_pred : List Int) : ℚ :=
  ((classLabels y_true y_pred).map (fun c => f1Of c y_true y_pred)).sum
    / ((classLabels y_true y_pred).length : ℚ)

/-- What the opaque trained predictor emits on one test fold: the
predicted classes y_pred, the positive-class probability column y_prob
(column 1 of predict_proba), and the area the roc_curve/auc collaborators
would return for that fold. -/
structure PredOut where
  y_pred : List Int
  y_prob : List ℚ
  roc_auc : ℚ

/-- The five running sums of Classifier.evaluate, all starting at 0. -/
structure EvalSums where
  accuracy_sum : ℚ
  recall_sum : ℚ
  precision_sum : ℚ
  f1_sum : ℚ
  roc_auc_sum : ℚ
  deriving DecidableEq

/-- The all-zero initial accumulator state. -/
def zeroSums : EvalSums := ⟨0, 0, 0, 0, 0⟩

/-- The test labels of a fold: y_test = self.y[test_index]. -/
def foldYtest (y : List Int) (f : Fold) : List Int :=
  f.2.map (labelAt y)

/-- Embedding of one loop iteration of Classifier.evaluate.  Binary mode
adds accuracy, recall, precision and F1 to the sums, and adds the AUC
only when the number of test labels equals the number of probability
scores; multiclass mode adds the macro-averaged recall, precision and F1
and touches neither the accuracy sum nor the AUC sum. -/
def evalFold (binary_class : Bool) (y_test : List Int) (out : PredOut)
    (s : EvalSums) : EvalSums :=
  if binary_class then
    { accuracy_sum := s.accuracy_sum + accuracy_score y_test out.y_pred
      recall_sum := s.recall_sum + recall_score y_test out.y_pred
      precision_sum := s.precision_sum + precision_score y_test out.y_pred
      f1_sum := s.f1_sum + f1_score y_test out.y_pred
      roc_auc_sum :=
        if y_test.length = out.y_prob.length then
          s.roc_auc_sum + out.roc_auc
        else s.roc_auc_sum }
  else
    { accuracy_sum := s.accuracy_sum
      recall_sum := s.recall_sum + macroRecall y_test out.y_pred
      precision_sum := s.precision_sum + macroPrecision y_test out.y_pred
      f1_sum := s.f1_sum + macroF1 y_test out.y_pred
      roc_auc_sum := s.roc_auc_sum }

/-- The fold loop of Classifier.evaluate: the folds come from the
planner, the oracle gives the trained predictor output on each fold
position (training and predicting are the opaque collaborators). -/
def evalLoopAux (binary_class : Bool) (y : List Int)
    (oracle : Nat → PredOut) : Nat → List Fold → EvalSums → EvalSums
  | _, [], s => s
  | i, f :: rest, s =>
      evalLoopAux binary_class y oracle (i + 1) rest
        (evalFold binary_class (foldYtest y f) (oracle i) s)

/-- The running sums after the whole fold loop of evaluate. -/
def evalLoop (binary_class : Bool) (y : List Int) (oracle : Nat → PredOut)
    (folds : List Fold) : EvalSums :=
  evalLoopAux binary_class y oracle 0 folds zeroSums

/-- self.folds_num, fixed to 10 in the constructor. -/
def Classifier.folds_num : Nat := 10

/-- The averaged metrics reported at the end of evaluate.  Accuracy is
only reported in binary mode; the averaged AUC is only reported in binary
mode and when the accumulated AUC sum is positive. -/
structure RunSummary where
  avg_accuracy : Option ℚ
  avg_recall : ℚ
  avg_precision : ℚ
  avg_f1 : ℚ
  avg_roc_auc : Option ℚ
  deriving DecidableEq

/-- The reporting epilogue of Classifier.evaluate: every reported average
is the corresponding running sum divided by self.folds_num. -/
def evaluateFolds (binary_class : Bool) (y : List Int) (folds : List Fold)
    (oracle : Nat → PredOut) : RunSummary :=
  let s := evalLoop binary_class y oracle folds
  { avg_accuracy :=
      if binary_class then
        some (s.accuracy_sum / (Classifier.folds_num : ℚ))
      else none
    avg_recall := s.recall_sum / (Classifier.folds_num : ℚ)
    avg_precision := s.precision_sum / (Classifier.folds_num : ℚ)
    avg_f1 := s.f1_sum / (Classifier.folds_num : ℚ)
    avg_roc_auc :=
      if binary_class then
        if 0 < s.roc_auc_sum then
          some (s.roc_auc_sum / (Classifier.folds_num : ℚ))
        else none
      else none }

/-- Embedding of Classifier.evaluate end to end: split the data with the
planner at k = folds_num, run the fold loop, report the averages.  A
planner failure propagates uncaught. -/
def Classifier.evaluate (binary_class : Bool) (y : List Int)
    (oracle : Nat → PredOut) : Except SplitError RunSummary :=
  (FoldPlanner.split y Classifier.folds_num).map
    (fun folds => evaluateFolds binary_class y folds oracle)

/-- What one enumerated fold adds to the accuracy sum. -/
def accContrib (binary_class : Bool) (y : List Int)
    (oracle : Nat → PredOut) (p : Nat × Fold) : ℚ :=
  if binary_class then
    accuracy_score (foldYtest y p.2) (oracle p.1).y_pred
  else 0

/-- What one enumerated fold adds to the recall sum. -/
def recContrib (binary_class : Bool) (y : List Int)
    (oracle : Nat → PredOut) (p : Nat × Fold) : ℚ :=
  if binary_class then
    recall_score (foldYtest y p.2) (oracle p.1).y_pred
  else macroRecall (foldYtest y p.2) (oracle p.1).y_pred

/-- What one enumerated fold adds to the precision sum. -/
def precContrib (binary_class : Bool) (y : List Int)
    (oracle : Nat → PredOut) (p : Nat × Fold) : ℚ :=
  if binary_class then
    precision_score (foldYtest y p.2) (oracle p.1).y_pred
  else macroPrecision (foldYtest y p.2) (oracle p.1).y_pred

/-- What one enumerated fold adds to the F1 sum. -/
def f1Contrib (binary_class : Bool) (y : List Int)
    (oracle : Nat → PredOut) (p : Nat × Fold) : ℚ :=
  if binary_class then
    f1_score (foldYtest y p.2) (oracle p.1).y_pred
  else macroF1 (foldYtest y p.2) (oracle p.1).y_pred

/-- What one enumerated fold adds to the AUC sum: the fold AUC when in
binary mode the label and score counts agree, and nothing otherwise. -/
def aucContrib (binary_class : Bool) (y : List Int)
    (oracle : Nat → PredOut) (p : Nat × Fold) : ℚ :=
  if binary_class then
    if (foldYtest y p.2).length = (oracle p.1).y_prob.length then
      (oracle p.1).roc_auc
    else 0
  else 0

lemma evalLoopAux_closed (binary_class : Bool) (y : List Int)
    (oracle : Nat → PredOut) (folds : List Fold) :
    ∀ (i : Nat) (s : EvalSums),
      evalLoopAux binary_class y oracle i folds s =
        ⟨s.accuracy_sum
            + ((folds.enumFrom i).map (accContrib binary_class y oracle)).sum,
          s.recall_sum
            + ((folds.enumFrom i).map (recContrib binary_class y oracle)).sum,
          s.precision_sum
            + ((folds.enumFrom i).map (precContrib binary_class y oracle)).sum,
          s.f1_sum
            + ((folds.enumFrom i).map (f1Contrib binary_class y oracle)).sum,
          s.roc_auc_sum
            + ((folds.enumFrom i).map (aucContrib binary_class y oracle)).sum⟩ := by
  induction folds with
  | nil => intro i s; cases s; simp [evalLoopAux]
  | cons f rest ih =>
      intro i s
      have hstep : evalLoopAux binary_class y oracle i (f :: rest) s
          = evalLoopAux binary_class y oracle (i + 1) rest
              (evalFold binary_class (foldYtest y f) (oracle i) s) := rfl
      rw [hstep, ih]
      cases s
      cases binary_class
      · simp [evalFold, accContrib, recContrib, precContrib, f1Contrib,
          aucContrib, List.enumFrom, add_assoc]
      · by_cases hlen :
          (foldYtest y f).length = (oracle i).y_prob.length <;>
          simp [evalFold, accContrib, recContrib, precContrib, f1Contrib,
            aucContrib, List.enumFrom, hlen, add_assoc]

/-- C3: every reported averaged metric of evaluate is the running sum of
that metric divided by the configured fold count folds_num; in
particular the reported averaged AUC divides the AUC running sum, which
only the folds that passed the length check contributed to, by
folds_num and not by the number of contributing folds. -/
theorem C3_averages_divide_by_folds_num (binary_class : Bool)
    (y : List Int) (folds : List Fold) (oracle : Nat → PredOut) :
    (evaluateFolds binary_class y folds oracle).avg_recall
      = (evalLoop binary_class y oracle folds).recall_sum
          / (Classifier.folds_num : ℚ) ∧
    (evaluateFolds binary_class y folds oracle).avg_precision
      = (evalLoop binary_class y oracle folds).precision_sum
          / (Classifier.folds_num : ℚ) ∧
    (evaluateFolds binary_class y folds oracle).avg_f1
      = (evalLoop binary_class y oracle folds).f1_sum
          / (Classifier.folds_num : ℚ) ∧
    (∀ v : ℚ, (evaluateFolds binary_class y folds oracle).avg_accuracy
        = some v →
      v = (evalLoop binary_class y oracle folds).accuracy_sum
            / (Classifier.folds_num : ℚ)) ∧
    (∀ v : ℚ, (evaluateFolds binary_class y folds oracle).avg_roc_auc
        = some v →
      v = (evalLoop binary_class y oracle folds).roc_auc_sum
            / (Classifier.folds_num : ℚ)) ∧
    (evalLoop binary_class y oracle folds).roc_auc_sum
      = ((folds.enumFrom 0).map (aucContrib binary_class y oracle)).sum := by
  have hclosed := evalLoopAux_closed binary_class y oracle folds 0 zeroSums
  refine ⟨rfl, rfl, rfl, ?_, ?_, ?_⟩
  · intro v hv
    cases binary_class
    · simp [evaluateFolds] at hv
    · simp [evaluateFolds] at hv
      exact hv.symm
  · intro v hv
    cases binary_class
    · simp [evaluateFolds] at hv
    · by_cases hpos :
        0 < (evalLoop true y oracle folds).roc_auc_sum
      · simp [evaluateFolds, hpos] at hv
        exact hv.symm
      · simp [evaluateFolds, hpos] at hv
  · rw [evalLoop, hclosed]
    simp [zeroSums]

/-- C3 witness at a concrete binary run with one fold whose AUC length
check fails, so the AUC sum stays 0 while the divisor stays folds_num. -/
theorem C3_averages_divide_witness :
    (evaluateFolds true [0, 1] [([0], [1])]
        (fun _ => ⟨[1], [], 1⟩)).avg_recall
      = (evalLoop true [0, 1] (fun _ => ⟨[1], [], 1⟩)
          [([0], [1])]).recall_sum / (Classifier.folds_num : ℚ) ∧
    (evaluateFolds true [0, 1] [([0], [1])]
        (fun _ => ⟨[1], [], 1⟩)).avg_precision
      = (evalLoop true [0, 1] (fun _ => ⟨[1], [], 1⟩)
          [([0], [1])]).precision_sum / (Classifier.folds_num : ℚ) ∧
    (evaluateFolds true [0, 1] [([0], [1])]
        (fun _ => ⟨[1], [], 1⟩)).avg_f1
      = (evalLoop true [0, 1] (fun _ => ⟨[1], [], 1⟩)
          [([0], [1])]).f1_sum / (Classifier.folds_num : ℚ) ∧
    (∀ v : ℚ, (evaluateFolds true [0, 1] [([0], [1])]
        (fun _ => ⟨[1], [], 1⟩)).avg_accuracy = some v →
      v = (evalLoop true [0, 1] (fun _ => ⟨[1], [], 1⟩)
          [([0], [1])]).accuracy_sum / (Classifier.folds_num : ℚ)) ∧
    (∀ v : ℚ, (evaluateFolds true [0, 1] [([0], [1])]
        (fun _ => ⟨[1], [], 1⟩)).avg_roc_auc = some v →
      v = (evalLoop true [0, 1] (fun _ => ⟨[1], [], 1⟩)
          [([0], [1])]).roc_auc_sum / (Classifier.folds_num : ℚ)) ∧
    (evalLoop true [0, 1] (fun _ => ⟨[1], [], 1⟩)
        [([0], [1])]).roc_auc_sum
      = ((([([0], [1])] : List Fold).enumFrom 0).map
          (aucContrib true [0, 1] (fun _ => ⟨[1], [], 1⟩))).sum :=
  C3_averages_divide_by_folds_num true [0, 1] [([0], [1])]
    (fun _ => ⟨[1], [], 1⟩)

/-- C4: in a binary-mode fold, the AUC is added to the running AUC sum
exactly when the number of test labels equals the number of probability
scores, and the four other running sums do not depend on the probability
output at all: replacing the probability column and the AUC value while
keeping the predictions leaves them unchanged. -/
theorem C4_auc_guarded_by_length_check (y_test : List Int)
    (out : PredOut) (s : EvalSums) :
    ((evalFold true y_test out s).roc_auc_sum
      = if y_test.length = out.y_prob.length then
          s.roc_auc_sum + out.roc_auc
        else s.roc_auc_sum) ∧
    (∀ out2 : PredOut, out2.y_pred = out.y_pred →
      (evalFold true y_test out2 s).accuracy_sum
        = (evalFold true y_test out s).accuracy_sum ∧
      (evalFold true y_test out2 s).recall_sum
        = (evalFold true y_test out s).recall_sum ∧
      (evalFold true y_test out2 s).precision_sum
        = (evalFold true y_test out s).precision_sum ∧
      (evalFold true y_test out2 s).f1_sum
        = (evalFold true y_test out s).f1_sum) := by
  refine ⟨rfl, ?_⟩
  intro out2 h
  refine ⟨?_, ?_, ?_, ?_⟩ <;> simp [evalFold, h]

/-- C4 witness: a fold with two test labels but one probability score
adds nothing to the AUC sum while the other sums ignore the mismatch. -/
theorem C4_auc_guard_witness :
    ((evalFold true [0, 1] ⟨[0, 1], [1/2], 9/10⟩ zeroSums).roc_auc_sum
      = if ([0, 1] : List Int).length = ([1/2] : List ℚ).length then
          zeroSums.roc_auc_sum + 9/10
        else zeroSums.roc_auc_sum) ∧
    (∀ out2 : PredOut, out2.y_pred = [0, 1] →
      (evalFold true [0, 1] out2 zeroSums).accuracy_sum
        = (evalFold true [0, 1] ⟨[0, 1], [1/2], 9/10⟩
            zeroSums).accuracy_sum ∧
      (evalFold true [0, 1] out2 zeroSums).recall_sum
        = (evalFold true [0, 1] ⟨[0, 1], [1/2], 9/10⟩
            zeroSums).recall_sum ∧
      (evalFold true [0, 1] out2 zeroSums).precision_sum
        = (evalFold true [0, 1] ⟨[0, 1], [1/2], 9/10⟩
            zeroSums).precision_sum ∧
      (evalFold true [0, 1] out2 zeroSums).f1_sum
        = (evalFold true [0, 1] ⟨[0, 1], [1/2], 9/10⟩
            zeroSums).f1_sum) :=
  C4_auc_guarded_by_length_check [0, 1] ⟨[0, 1], [1/2], 9/10⟩ zeroSums

lemma accContrib_false (y : List Int) (oracle : Nat → PredOut) :
    accContrib false y oracle = fun _ => 0 := by
  funext p
  simp [accContrib]

lemma recContrib_false (y : List Int) (oracle : Nat → PredOut) :
    recContrib false y oracle
      = fun p => macroRecall (foldYtest y p.2) (oracle p.1).y_pred := by
  funext p
  simp [recContrib]

lemma precContrib_false (y : List Int) (oracle : Nat → PredOut) :
    precContrib false y oracle
      = fun p => macroPrecision (foldYtest y p.2) (oracle p.1).y_pred := by
  funext p
  simp [precContrib]

lemma f1Contrib_false (y : List Int) (oracle : Nat → PredOut) :
    f1Contrib false y oracle
      = fun p => macroF1 (foldYtest y p.2) (oracle p.1).y_pred := by
  funext p
  simp [f1Contrib]

/-- C7: in multiclass mode evaluate uses the macro-averaged recall,
precision and F-measure per fold, and accuracy is computed nowhere: the
accuracy running sum stays 0 and no averaged accuracy is reported. -/
theorem C7_multiclass_macro_and_no_accuracy (y : List Int)
    (folds : List Fold) (oracle : Nat → PredOut) :
    (evaluateFolds false y folds oracle).avg_accuracy = none ∧
    (evalLoop false y oracle folds).accuracy_sum = 0 ∧
    (evaluateFolds false y folds oracle).avg_recall
      = ((folds.enumFrom 0).map
          (fun p => macroRecall (foldYtest y p.2) (oracle p.1).y_pred)).sum
        / (Classifier.folds_num : ℚ) ∧
    (evaluateFolds false y folds oracle).avg_precision
      = ((folds.enumFrom 0).map
          (fun p => macroPrecision (foldYtest y p.2) (oracle p.1).y_pred)).sum
        / (Classifier.folds_num : ℚ) ∧
    (evaluateFolds false y folds oracle).avg_f1
      = ((folds.enumFrom 0).map
          (fun p => macroF1 (foldYtest y p.2) (oracle p.1).y_pred)).sum
        / (Classifier.folds_num : ℚ) := by
  have hclosed := evalLoopAux_closed false y oracle folds 0 zeroSums
  refine ⟨rfl, ?_, ?_, ?_, ?_⟩
  · rw [evalLoop, hclosed, accContrib_false]
    simp [zeroSums]
  · show (evalLoop false y oracle folds).recall_sum
        / (Classifier.folds_num : ℚ) = _
    rw [evalLoop, hclosed, recContrib_false]
    simp [zeroSums]
  · show (evalLoop false y oracle folds).precision_sum
        / (Classifier.folds_num : ℚ) = _
    rw [evalLoop, hclosed, precContrib_false]
    simp [zeroSums]
  · show (evalLoop false y oracle folds).f1_sum
        / (Classifier.folds_num : ℚ) = _
    rw [evalLoop, hclosed, f1Contrib_false]
    simp [zeroSums]

/-- C7 witness at a concrete three-class fold. -/
theorem C7_multiclass_witness :
    (evaluateFolds false [0, 1, 2] [([0, 1], [2])]
        (fun _ => ⟨[2], [], 0⟩)).avg_accuracy = none ∧
    (evalLoop false [0, 1, 2] (fun _ => ⟨[2], [], 0⟩)
        [([0, 1], [2])]).accuracy_sum = 0 ∧
    (evaluateFolds false [0, 1, 2] [([0, 1], [2])]
        (fun _ => ⟨[2], [], 0⟩)).avg_recall
      = ((([([0, 1], [2])] : List Fold).enumFrom 0).map
          (fun p => macroRecall (foldYtest [0, 1, 2] p.2)
            ((fun _ => (⟨[2], [], 0⟩ : PredOut)) p.1).y_pred)).sum
        / (Classifier.folds_num : ℚ) ∧
    (evaluateFolds false [0, 1, 2] [([0, 1], [2])]
        (fun _ => ⟨[2], [], 0⟩)).avg_precision
      = ((([([0, 1], [2])] : List Fold).enumFrom 0).map
          (fun p => macroPrecision (foldYtest [0, 1, 2] p.2)
            ((fun _ => (⟨[2], [], 0⟩ : PredOut)) p.1).y_pred)).sum
        / (Classifier.folds_num : ℚ) ∧
    (evaluateFolds false [0, 1, 2] [([0, 1], [2])]
        (fun _ => ⟨[2], [], 0⟩)).avg_f1
      = ((([([0, 1], [2])] : List Fold).enumFrom 0).map
          (fun p => macroF1 (foldYtest [0, 1, 2] p.2)
            ((fun _ => (⟨[2], [], 0⟩ : PredOut)) p.1).y_pred)).sum
        / (Classifier.folds_num : ℚ) :=
  C7_multiclass_macro_and_no_accuracy [0, 1, 2] [([0, 1], [2])]
    (fun _ => ⟨[2], [], 0⟩)

/-- The per-fold metric values of evaluate on one enumerated fold: the
binary scores in binary mode, the macro scores otherwise. -/
def foldMetricValues (binary_class : Bool) (y : List Int)
    (oracle : Nat → PredOut) (p : Nat × Fold) : List ℚ :=
  if binary_class then
    [accuracy_score (foldYtest y p.2) (oracle p.1).y_pred,
     recall_score (foldYtest y p.2) (oracle p.1).y_pred,
     precision_score (foldYtest y p.2) (oracle p.1).y_pred,
     f1_score (foldYtest y p.2) (oracle p.1).y_pred]
  else
    [macroRecall (foldYtest y p.2) (oracle p.1).y_pred,
     macroPrecision (foldYtest y p.2) (oracle p.1).y_pred,
     macroF1 (foldYtest y p.2) (oracle p.1).y_pred]

lemma sum_le_of_bounds (l : List ℚ) (h : ∀ x ∈ l, 0 ≤ x ∧ x ≤ 1) :
    0 ≤ l.sum ∧ l.sum ≤ (l.length : ℚ) := by
  induction l with
  | nil => simp
  | cons a t ih =>
      have ha := h a (List.mem_cons_self a t)
      have ht := ih (fun x hx => h x (List.mem_cons_of_mem a hx))
      refine ⟨add_nonneg ha.1 ht.1, ?_⟩
      have : a + t.sum ≤ 1 + (t.length : ℚ) := add_le_add ha.2 ht.2
      calc (a :: t).sum = a + t.sum := by simp
        _ ≤ 1 + (t.length : ℚ) := this
        _ = ((a :: t).length : ℚ) := by
              simp [List.length_cons]
              ring

lemma avg_bounded (l : List ℚ) (h : ∀ x ∈ l, 0 ≤ x ∧ x ≤ 1)
    (hl : l.length = Classifier.folds_num) :
    0 ≤ l.sum / (Classifier.folds_num : ℚ) ∧
    l.sum / (Classifier.folds_num : ℚ) ≤ 1 := by
  have hs := sum_le_of_bounds l h
  constructor
  · exact div_nonneg hs.1 (by norm_num [Classifier.folds_num])
  · rw [div_le_one (by norm_num [Classifier.folds_num])]
    calc l.sum ≤ (l.length : ℚ) := hs.2
      _ = (Classifier.folds_num : ℚ) := by rw [hl]

/-- C8: in a completed run, whose fold loop ran over exactly folds_num
folds, every averaged metric among accuracy, recall, precision and F1
lies in the closed interval from 0 to 1, given that every per-fold
metric value lies in that interval. -/
theorem C8_averaged_metrics_bounded (binary_class : Bool) (y : List Int)
    (folds : List Fold) (oracle : Nat → PredOut)
    (hlen : folds.length = Classifier.folds_num)
    (hbound : ∀ p ∈ folds.enumFrom 0,
      ∀ m ∈ foldMetricValues binary_class y oracle p, 0 ≤ m ∧ m ≤ 1) :
    (∀ v : ℚ, (evaluateFolds binary_class y folds oracle).avg_accuracy
        = some v → 0 ≤ v ∧ v ≤ 1) ∧
    (0 ≤ (evaluateFolds binary_class y folds oracle).avg_recall ∧
      (evaluateFolds binary_class y folds oracle).avg_recall ≤ 1) ∧
    (0 ≤ (evaluateFolds binary_class y folds oracle).avg_precision ∧
      (evaluateFolds binary_class y folds oracle).avg_precision ≤ 1) ∧
    (0 ≤ (evaluateFolds binary_class y folds oracle).avg_f1 ∧
      (evaluateFolds binary_class y folds oracle).avg_f1 ≤ 1) := by
  have hclosed := evalLoopAux_closed binary_class y oracle folds 0 zeroSums
  have hmaplen : ∀ g : Nat × Fold → ℚ,
      ((folds.enumFrom 0).map g).length = Classifier.folds_num := by
    intro g
    simp [hlen]
  have haccB : ∀ x ∈ (folds.enumFrom 0).map
      (accContrib binary_class y oracle), 0 ≤ x ∧ x ≤ 1 := by
    intro x hx
    rcases List.mem_map.mp hx with ⟨p, hp, rfl⟩
    cases binary_class
    · simp [accContrib]
    · refine hbound p hp _ ?_
      simp [accContrib, foldMetricValues]
  have hrecB : ∀ x ∈ (folds.enumFrom 0).map
      (recContrib binary_class y oracle), 0 ≤ x ∧ x ≤ 1 := by
    intro x hx
    rcases List.mem_map.mp hx with ⟨p, hp, rfl⟩
    cases binary_class
    · refine hbound p hp _ ?_
      simp [recContrib, foldMetricValues]
    · refine hbound p hp _ ?_
      simp [recContrib, foldMetricValues]
  have hprecB : ∀ x ∈ (folds.enumFrom 0).map
      (precContrib binary_class y oracle), 0 ≤ x ∧ x ≤ 1 := by
    intro x hx
    rcases List.mem_map.mp hx with ⟨p, hp, rfl⟩
    cases binary_class
    · refine hbound p hp _ ?_
      simp [precContrib, foldMetricValues]
    · refine hbound p hp _ ?_
      simp [precContrib, foldMetricValues]
  have hf1B : ∀ x ∈ (folds.enumFrom 0).map
      (f1Contrib binary_class y oracle), 0 ≤ x ∧ x ≤ 1 := by
    intro x hx
    rcases List.mem_map.mp hx with ⟨p, hp, rfl⟩
    cases binary_class
    · refine hbound p hp _ ?_
      simp [f1Contrib, foldMetricValues]
    · refine hbound p hp _ ?_
      simp [f1Contrib, foldMetricValues]
  have hacc := avg_bounded _ haccB (hmaplen _)
  have hrec := avg_bounded _ hrecB (hmaplen _)
  have hprec := avg_bounded _ hprecB (hmaplen _)
  have hf1 := avg_bounded _ hf1B (hmaplen _)
  refine ⟨?_, ?_, ?_, ?_⟩
  · intro v hv
    cases binary_class
    · simp [evaluateFolds] at hv
    · have hvv : v = (evalLoop true y oracle folds).accuracy_sum
          / (Classifier.folds_num : ℚ) := by
        simp [evaluateFolds] at hv
        exact hv.symm
      rw [hvv, evalLoop, hclosed]
      simpa [zeroSums] using hacc
  · have : (evaluateFolds binary_class y folds oracle).avg_recall
        = (evalLoop binary_class y oracle folds).recall_sum
            / (Classifier.folds_num : ℚ) := rfl
    rw [this, evalLoop, hclosed]
    simpa [zeroSums] using hrec
  · have : (evaluateFolds binary_class y folds oracle).avg_precision
        = (evalLoop binary_class y oracle folds).precision_sum
            / (Classifier.folds_num : ℚ) := rfl
    rw [this, evalLoop, hclosed]
    simpa [zeroSums] using hprec
  · have : (evaluateFolds binary_class y folds oracle).avg_f1
        = (evalLoop binary_class y oracle folds).f1_sum
            / (Classifier.folds_num : ℚ) := rfl
    rw [this, evalLoop, hclosed]
    simpa [zeroSums] using hf1

/-- C8 witness: a binary run over the configured number of folds, each
with an empty test set, on which every per-fold metric evaluates to 0,
so all averages land inside the interval. -/
theorem C8_averaged_metrics_bounded_witness :
    ((List.replicate 10 (([], []) : Fold)).length
        = Classifier.folds_num ∧
     ∀ p ∈ (List.replicate 10 (([], []) : Fold)).enumFrom 0,
       ∀ m ∈ foldMetricValues true [0, 1]
           (fun _ => ⟨[], [], 1⟩) p, 0 ≤ m ∧ m ≤ 1) ∧
    ((∀ v : ℚ, (evaluateFolds true [0, 1]
          (List.replicate 10 (([], []) : Fold))
          (fun _ => ⟨[], [], 1⟩)).avg_accuracy = some v →
        0 ≤ v ∧ v ≤ 1) ∧
     (0 ≤ (evaluateFolds true [0, 1]
          (List.replicate 10 (([], []) : Fold))
          (fun _ => ⟨[], [], 1⟩)).avg_recall ∧
       (evaluateFolds true [0, 1]
          (List.replicate 10 (([], []) : Fold))
          (fun _ => ⟨[], [], 1⟩)).avg_recall ≤ 1) ∧
     (0 ≤ (evaluateFolds true [0, 1]
          (List.replicate 10 (([], []) : Fold))
          (fun _ => ⟨[], [], 1⟩)).avg_precision ∧
       (evaluateFolds true [0, 1]
          (List.replicate 10 (([], []) : Fold))
          (fun _ => ⟨[], [], 1⟩)).avg_precision ≤ 1) ∧
     (0 ≤ (evaluateFolds true [0, 1]
          (List.replicate 10 (([], []) : Fold))
          (fun _ => ⟨[], [], 1⟩)).avg_f1 ∧
       (evaluateFolds true [0, 1]
          (List.replicate 10 (([], []) : Fold))
          (fun _ => ⟨[], [], 1⟩)).avg_f1 ≤ 1)) :=
  ⟨⟨by decide, by
      intro p hp m hm
      have h2 := List.mem_enumFrom hp
      have h3 : p.2 = (([], []) : Fold) := by
        rw [h2.2.2, List.getElem_replicate]
      have hfm : foldMetricValues true [0, 1]
          (fun _ => (⟨[], [], 1⟩ : PredOut)) p = [0, 0, 0, 0] := by
        simp [foldMetricValues, h3, foldYtest, accuracy_score,
          recall_score, precision_score, f1_score, recallOf, precisionOf,
          f1Of, truePos, falseNeg, falsePos]
      rw [hfm] at hm
      simp at hm
      rw [hm]
      exact ⟨le_refl 0, zero_le_one⟩⟩,
   C8_averaged_metrics_bounded true [0, 1]
     (List.replicate 10 (([], []) : Fold))
     (fun _ => ⟨[], [], 1⟩) (by decide)
     (by
      intro p hp m hm
      have h2 := List.mem_enumFrom hp
      have h3 : p.2 = (([], []) : Fold) := by
        rw [h2.2.2, List.getElem_replicate]
      have hfm : foldMetricValues true [0, 1]
          (fun _ => (⟨[], [], 1⟩ : PredOut)) p = [0, 0, 0, 0] := by
        simp [foldMetricValues, h3, foldYtest, accuracy_score,
          recall_score, precision_score, f1_score, recallOf, precisionOf,
          f1Of, truePos, falseNeg, falsePos]
      rw [hfm] at hm
      simp at hm
      rw [hm]
      exact ⟨le_refl 0, zero_le_one⟩)⟩
